import Mathlib

/-!
Verification of the agile_mcp artifact-lifecycle layer.

The Python services (StoryService, SprintService, the sprint/epic tools) are
shallowly embedded: pydantic records become structures, datetimes become
integer epoch seconds, `Optional` keyword arguments become `Option` parameters
(Python conflates "not supplied" with None, and so does the embedding), the
file-backed AgileProjectManager becomes an explicit ProjectState threaded
through every operation, and ValueError / ToolError become `Except.error`.
Random ID generation and the wall clock are inputs of the embedded functions.
-/

namespace AgileMcp

/-- Story priority enumeration (models/story.py, values low/medium/high/critical). -/
inductive Priority where
  | low
  | medium
  | high
  | critical
deriving DecidableEq, Repr

/-- Story status enumeration. Modelled from the spec: models/story.py is not in
the sources; the spec lists status values todo, in_progress, done. -/
inductive StoryStatus where
  | todo
  | in_progress
  | done
deriving DecidableEq, Repr

/-- Sprint status enumeration (models/sprint.py). -/
inductive SprintStatus where
  | planning
  | active
  | completed
  | cancelled
deriving DecidableEq, Repr

/-- Epic status enumeration. Modelled from the spec: models/epic.py derives it
from the base module which is not in the sources; the spec lists
planning, in_progress, completed, on_hold. -/
inductive EpicStatus where
  | planning
  | in_progress
  | completed
  | on_hold
deriving DecidableEq, Repr

/-- UserStory record. Modelled from the spec: models/story.py is not in the
sources; fields follow the spec data model and the uses in story_service.py.
Dates are epoch seconds. -/
structure UserStory where
  id : String
  title : String
  description : String
  priority : Priority
  status : StoryStatus
  points : Option Int
  sprint_id : Option String
  epic_id : Option String
  tags : List String
  created_at : Nat
  updated_at : Nat
deriving DecidableEq, Repr

/-- Sprint record (models/sprint.py plus the base artifact fields). -/
structure Sprint where
  id : String
  name : String
  goal : Option String
  start_date : Option Int
  end_date : Option Int
  status : SprintStatus
  story_ids : List String
  tags : List String
  created_at : Nat
  updated_at : Nat
deriving DecidableEq, Repr

/-- Epic record (models/epic.py plus the base artifact fields). -/
structure Epic where
  id : String
  title : String
  description : String
  status : EpicStatus
  story_ids : List String
  tags : List String
  created_at : Nat
  updated_at : Nat
deriving DecidableEq, Repr

/-- The persistence collaborator. Modelled from the spec: storage/filesystem.py
(AgileProjectManager) is not in the sources; the spec describes it as one
durable key-value collection per artifact kind with get/save/delete/list. -/
structure ProjectState where
  stories : List UserStory
  sprints : List Sprint
  epics : List Epic
deriving DecidableEq, Repr

/-- Modelled from the spec: get(stories, id) returns the record with this id. -/
def get_story (st : ProjectState) (story_id : String) : Option UserStory :=
  st.stories.find? (fun s => decide (s.id = story_id))

/-- Modelled from the spec: save(stories, s) replaces the record keyed by
s.id, or appends it when absent. -/
def save_story (st : ProjectState) (s : UserStory) : ProjectState :=
  if st.stories.any (fun t => decide (t.id = s.id)) then
    { st with stories := st.stories.map (fun t => if t.id = s.id then s else t) }
  else
    { st with stories := st.stories ++ [s] }

/-- Modelled from the spec: delete(stories, id); the Bool reports presence. -/
def delete_story_record (st : ProjectState) (story_id : String) : Bool × ProjectState :=
  (st.stories.any (fun t => decide (t.id = story_id)),
   { st with stories := st.stories.filter (fun t => decide (t.id ≠ story_id)) })

/-- Modelled from the spec: get(sprints, id). -/
def get_sprint (st : ProjectState) (sprint_id : String) : Option Sprint :=
  st.sprints.find? (fun s => decide (s.id = sprint_id))

/-- Modelled from the spec: save(sprints, s). -/
def save_sprint (st : ProjectState) (s : Sprint) : ProjectState :=
  if st.sprints.any (fun t => decide (t.id = s.id)) then
    { st with sprints := st.sprints.map (fun t => if t.id = s.id then s else t) }
  else
    { st with sprints := st.sprints ++ [s] }

/-- Modelled from the spec: get(epics, id). -/
def get_epic (st : ProjectState) (epic_id : String) : Option Epic :=
  st.epics.find? (fun e => decide (e.id = epic_id))

/-- Modelled from the spec: save(epics, e). -/
def save_epic (st : ProjectState) (e : Epic) : ProjectState :=
  if st.epics.any (fun t => decide (t.id = e.id)) then
    { st with epics := st.epics.map (fun t => if t.id = e.id then e else t) }
  else
    { st with epics := st.epics ++ [e] }

namespace StoryService

/-- services/story_service.py line 16: the allowed story-point values. -/
def VALID_FIBONACCI_POINTS : List Int := [1, 2, 3, 5, 8, 13, 21, 34, 55, 89, 134]

/-- True when a supplied points value is outside the allowed set
(story_service.py lines 55-58 and 125-126). -/
def pointsInvalid (points : Option Int) : Bool :=
  match points with
  | none => false
  | some p => decide (p ∉ VALID_FIBONACCI_POINTS)

/-- StoryService.create_story (story_service.py lines 27-78). The generated id
and the creation time are inputs; ValueError becomes Except.error. -/
def create_story (st : ProjectState) (story_id : String) (title description : String)
    (priority : Priority) (status : StoryStatus) (points : Option Int)
    (sprint_id : Option String) (tags : Option (List String)) (now : Nat) :
    Except String (UserStory × ProjectState) :=
  if pointsInvalid points then
    Except.error "Story points must be a Fibonacci number"
  else
    let story : UserStory :=
      { id := story_id
        title := title
        description := description
        priority := priority
        status := status
        points := points
        sprint_id := sprint_id
        epic_id := none
        tags := tags.getD []
        created_at := now
        updated_at := now }
    Except.ok (story, save_story st story)

/-- StoryService.update_story (story_service.py lines 91-151): none when the
story is absent, points re-validated only after the lookup succeeds, only the
supplied fields replaced, full record persisted. -/
def update_story (st : ProjectState) (story_id : String)
    (title description : Option String) (priority : Option Priority)
    (status : Option StoryStatus) (points : Option Int)
    (sprint_id : Option String) (tags : Option (List String)) :
    Except String (Option (UserStory × ProjectState)) :=
  match get_story st story_id with
  | none => Except.ok none
  | some story =>
    if pointsInvalid points then
      Except.error "Story points must be a Fibonacci number"
    else
      let updated : UserStory :=
        { story with
          title := title.getD story.title
          description := description.getD story.description
          priority := priority.getD story.priority
          status := status.getD story.status
          points := match points with | some p => some p | none => story.points
          sprint_id := match sprint_id with | some s => some s | none => story.sprint_id
          tags := tags.getD story.tags }
      Except.ok (some (updated, save_story st updated))

/-- StoryService.delete_story (story_service.py lines 153-162). -/
def delete_story (st : ProjectState) (story_id : String) : Bool × ProjectState :=
  delete_story_record st story_id

/-- StoryService.list_stories (story_service.py lines 164-207): conjunctive
filters; a sprint_id filter compares for equality, otherwise the internal
no-sprint flag keeps only stories whose sprint_id is None. -/
def list_stories (st : ProjectState) (status : Option StoryStatus)
    (priority : Option Priority) (sprint_id : Option String)
    (filter_no_sprint : Bool) : List UserStory :=
  st.stories.filter (fun story =>
    (match status with
     | some v => decide (story.status = v)
     | none => true) &&
    (match priority with
     | some v => decide (story.priority = v)
     | none => true) &&
    (match sprint_id with
     | some sid => decide (story.sprint_id = some sid)
     | none => if filter_no_sprint then decide (story.sprint_id = none) else true))

end StoryService

namespace SprintService

/-- True when both dates are supplied and the end is not strictly after the
start (sprint_service.py line 53; datetimes are always truthy in Python). -/
def datesInvalid (start_date end_date : Option Int) : Bool :=
  match start_date, end_date with
  | some s, some e => decide (e ≤ s)
  | _, _ => false

/-- SprintService.create_sprint (sprint_service.py lines 25-74). The generated
id and creation time are inputs; ValueError becomes Except.error. -/
def create_sprint (st : ProjectState) (sprint_id : String) (name : String)
    (goal : Option String) (start_date end_date : Option Int)
    (status : SprintStatus) (story_ids : Option (List String))
    (tags : Option (List String)) (now : Nat) :
    Except String (Sprint × ProjectState) :=
  if datesInvalid start_date end_date then
    Except.error "End date must be after start date"
  else
    let sprint : Sprint :=
      { id := sprint_id
        name := name
        goal := goal
        start_date := start_date
        end_date := end_date
        status := status
        story_ids := story_ids.getD []
        tags := tags.getD []
        created_at := now
        updated_at := now }
    Except.ok (sprint, save_sprint st sprint)

/-- SprintService.update_sprint (sprint_service.py lines 87-143): none when the
sprint is absent, supplied fields merged via pydantic model_copy and persisted.
model_copy performs no validation, so no date check happens here even though
the docstring of the Python function announces one. -/
def update_sprint (st : ProjectState) (sprint_id : String)
    (name goal : Option String) (start_date end_date : Option Int)
    (status : Option SprintStatus) (story_ids : Option (List String))
    (tags : Option (List String)) : Option (Sprint × ProjectState) :=
  match get_sprint st sprint_id with
  | none => none
  | some sprint =>
    let updated : Sprint :=
      { sprint with
        name := name.getD sprint.name
        goal := match goal with | some g => some g | none => sprint.goal
        start_date := match start_date with | some d => some d | none => sprint.start_date
        end_date := match end_date with | some d => some d | none => sprint.end_date
        status := status.getD sprint.status
        story_ids := story_ids.getD sprint.story_ids
        tags := tags.getD sprint.tags }
    some (updated, save_sprint st updated)

/-- SprintService.delete_sprint (sprint_service.py lines 145-154). -/
def delete_sprint (st : ProjectState) (sprint_id : String) : Bool × ProjectState :=
  (st.sprints.any (fun t => decide (t.id = sprint_id)),
   { st with sprints := st.sprints.filter (fun t => decide (t.id ≠ sprint_id)) })

/-- The list_sprints ordering (sprint_service.py line 188): sort key created_at
with reverse=True, so a sprint may precede another exactly when its created_at
is at least as large. -/
def sprintLe (a b : Sprint) : Prop :=
  b.created_at ≤ a.created_at

instance : DecidableRel sprintLe :=
  fun a b => inferInstanceAs (Decidable (b.created_at ≤ a.created_at))

instance : IsTotal Sprint sprintLe :=
  ⟨fun a b => Nat.le_total b.created_at a.created_at⟩

instance : IsTrans Sprint sprintLe :=
  ⟨fun _ _ _ h1 h2 => Nat.le_trans h2 h1⟩

/-- SprintService.list_sprints (sprint_service.py lines 156-190): filter by
status, clear story_ids in the summary view, then stably sort by created_at
descending (Python list.sort is stable, as is insertionSort). -/
def list_sprints (st : ProjectState) (status : Option SprintStatus)
    (include_story_ids : Bool) : List Sprint :=
  let filtered :=
    (st.sprints.filter (fun sp =>
      match status with
      | some v => decide (sp.status = v)
      | none => true)).map
      (fun sp => if include_story_ids then sp else { sp with story_ids := [] })
  List.insertionSort sprintLe filtered

/-- SprintService.get_active_sprint (sprint_service.py lines 192-199). -/
def get_active_sprint (st : ProjectState) : Option Sprint :=
  (list_sprints st (some SprintStatus.active) true).head?

/-- SprintService.add_story_to_sprint (sprint_service.py lines 212-231):
append the id when absent, then write back through update_sprint. The story
record itself is never touched. -/
def add_story_to_sprint (st : ProjectState) (sprint_id story_id : String) :
    Option (Sprint × ProjectState) :=
  match get_sprint st sprint_id with
  | none => none
  | some sprint =>
    let story_ids :=
      if story_id ∈ sprint.story_ids then sprint.story_ids
      else sprint.story_ids ++ [story_id]
    update_sprint st sprint_id none none none none none (some story_ids) none

/-- SprintService.remove_story_from_sprint (sprint_service.py lines 233-250). -/
def remove_story_from_sprint (st : ProjectState) (sprint_id story_id : String) :
    Option (Sprint × ProjectState) :=
  match get_sprint st sprint_id with
  | none => none
  | some sprint =>
    let story_ids := sprint.story_ids.filter (fun sid => decide (sid ≠ story_id))
    update_sprint st sprint_id none none none none none (some story_ids) none

/-- The progress record built by get_sprint_progress; absent dictionary keys
are Option fields left at none. -/
structure SprintProgress where
  sprint_id : String
  name : String
  status : SprintStatus
  story_count : Nat
  start_date : Option Int
  end_date : Option Int
  goal : Option String
  time_progress_percent : Option ℚ
  days_until_start : Option Int
  days_overdue : Option Int
  days_remaining : Option Int
deriving DecidableEq, Repr

/-- SprintService.get_sprint_progress (sprint_service.py lines 316-358): none
models the empty dictionary returned for an unknown sprint; the day counts use
floor division by 86400 seconds exactly as timedelta.days does. -/
def get_sprint_progress (st : ProjectState) (sprint_id : String) (now : Int) :
    Option SprintProgress :=
  match get_sprint st sprint_id with
  | none => none
  | some sprint =>
    let base : SprintProgress :=
      { sprint_id := sprint_id
        name := sprint.name
        status := sprint.status
        story_count := sprint.story_ids.length
        start_date := sprint.start_date
        end_date := sprint.end_date
        goal := sprint.goal
        time_progress_percent := none
        days_until_start := none
        days_overdue := none
        days_remaining := none }
    match sprint.start_date, sprint.end_date with
    | some sd, some ed =>
      if now < sd then
        some { base with
          time_progress_percent := some 0
          days_until_start := some ((sd - now).fdiv 86400) }
      else if ed < now then
        some { base with
          time_progress_percent := some 100
          days_overdue := some ((now - ed).fdiv 86400) }
      else
        some { base with
          time_progress_percent :=
            some (((now - sd : Int) : ℚ) / ((ed - sd : Int) : ℚ) * 100)
          days_remaining := some ((ed - now).fdiv 86400) }
    | _, _ => some base

end SprintService

namespace EpicService

/-- Modelled from the spec: services/epic_service.py is not in the sources.
EpicService.delete_epic returns false when the epic is absent; otherwise every
story listed in the epic story_ids, cross-checked against stories whose
epic_id equals this epic, has its epic_id cleared and persisted before the
physical deletion, and true is returned. -/
def delete_epic (st : ProjectState) (epic_id : String) : Bool × ProjectState :=
  match get_epic st epic_id with
  | none => (false, st)
  | some epic =>
    let st1 : ProjectState :=
      { st with stories := st.stories.map (fun s =>
          if s.id ∈ epic.story_ids ∨ s.epic_id = some epic_id then
            { s with epic_id := none }
          else s) }
    (true, { st1 with epics := st1.epics.filter (fun e => decide (e.id ≠ epic_id)) })

end EpicService

/-- Python truthiness of an optional string: None and the empty string are
falsy (epic_tools.py lines 269, 272, 281 test the raw argument strings). -/
def truthyOptStr (s : Option String) : Bool :=
  match s with
  | none => false
  | some str => decide (str ≠ "")

/-- The Priority(value) enum constructor used by the tool layer. Modelled from
the spec: models/story.py is not in the sources; the values are
low/medium/high/critical. -/
def Priority.ofString (s : String) : Option Priority :=
  if s = "low" then some Priority.low
  else if s = "medium" then some Priority.medium
  else if s = "high" then some Priority.high
  else if s = "critical" then some Priority.critical
  else none

namespace GetProductBacklogTool

/-- The priority sort rank (epic_tools.py line 293). -/
def priorityOrder (p : Priority) : Nat :=
  match p with
  | Priority.critical => 4
  | Priority.high => 3
  | Priority.medium => 2
  | Priority.low => 1

/-- The backlog ordering (epic_tools.py lines 293-297): Python sorts by the
key (priority rank, created_at) with reverse=True, so a story may precede
another exactly when its key is at least as large lexicographically. -/
def backlogLe (a b : UserStory) : Prop :=
  priorityOrder b.priority < priorityOrder a.priority ∨
    (priorityOrder b.priority = priorityOrder a.priority ∧ b.created_at ≤ a.created_at)

instance : DecidableRel backlogLe :=
  fun a b => inferInstanceAs (Decidable
    (priorityOrder b.priority < priorityOrder a.priority ∨
      (priorityOrder b.priority = priorityOrder a.priority ∧
        b.created_at ≤ a.created_at)))

instance : IsTotal UserStory backlogLe := by
  constructor
  intro a b
  rcases Nat.lt_trichotomy (priorityOrder b.priority) (priorityOrder a.priority) with h | h | h
  · exact Or.inl (Or.inl h)
  · rcases Nat.le_total b.created_at a.created_at with h2 | h2
    · exact Or.inl (Or.inr ⟨h, h2⟩)
    · exact Or.inr (Or.inr ⟨h.symm, h2⟩)
  · exact Or.inr (Or.inl h)

instance : IsTrans UserStory backlogLe := by
  constructor
  intro a b c h1 h2
  rcases h1 with h1 | ⟨h1e, h1le⟩
  · rcases h2 with h2 | ⟨h2e, _⟩
    · exact Or.inl (Nat.lt_trans h2 h1)
    · exact Or.inl (h2e ▸ h1)
  · rcases h2 with h2 | ⟨h2e, h2le⟩
    · exact Or.inl (h1e ▸ h2)
    · exact Or.inr ⟨h2e.trans h1e, Nat.le_trans h2le h1le⟩

/-- The comma-split, stripped and lowercased tag filter list
(epic_tools.py line 282). -/
def splitTags (tags : String) : List String :=
  (tags.split (fun c => c = ',')).map (fun t => t.trim.toLower)

/-- Parsing of the optional priority argument (epic_tools.py lines 272-279):
skipped entirely when the argument is falsy, ToolError on an unknown value. -/
def parsePriorityFilter (priority : Option String) : Except String (Option Priority) :=
  match priority with
  | none => Except.ok none
  | some p =>
    if p = "" then Except.ok none
    else
      match Priority.ofString p with
      | some pe => Except.ok (some pe)
      | none => Except.error "Invalid priority"

/-- GetProductBacklogTool.apply (epic_tools.py lines 252-297): stories with a
falsy sprint_id, filtered by the optional priority, by case-insensitive any-of
tag membership, done stories dropped unless include_completed, then stably
sorted by (priority rank, created_at) descending. -/
def apply (st : ProjectState) (priority tags : Option String)
    (include_completed : Bool) : Except String (List UserStory) :=
  let all_stories := StoryService.list_stories st none none none false
  let backlog0 := all_stories.filter (fun s => !truthyOptStr s.sprint_id)
  match parsePriorityFilter priority with
  | Except.error e => Except.error e
  | Except.ok popt =>
    let backlog1 :=
      match popt with
      | some pe => backlog0.filter (fun s => decide (s.priority = pe))
      | none => backlog0
    let backlog2 :=
      if truthyOptStr tags then
        let tag_list := splitTags (tags.getD "")
        backlog1.filter (fun s =>
          tag_list.any (fun tag => decide (tag ∈ s.tags.map String.toLower)))
      else backlog1
    let backlog3 :=
      if include_completed then backlog2
      else backlog2.filter (fun s => decide (s.status ≠ StoryStatus.done))
    Except.ok (List.insertionSort backlogLe backlog3)

end GetProductBacklogTool

/-! Concrete fixtures used to instantiate the theorems below. -/

/-- A concrete story record builder for fixtures. -/
def mkStory (i : String) (pr : Priority) (stt : StoryStatus) (pts : Option Int)
    (sid eid : Option String) (tg : List String) (c : Nat) : UserStory :=
  { id := i, title := i, description := "", priority := pr, status := stt,
    points := pts, sprint_id := sid, epic_id := eid, tags := tg,
    created_at := c, updated_at := c }

/-- A concrete sprint record builder for fixtures. -/
def mkSprint (i : String) (stt : SprintStatus) (sd ed : Option Int)
    (ids : List String) (c : Nat) : Sprint :=
  { id := i, name := i, goal := none, start_date := sd, end_date := ed,
    status := stt, story_ids := ids, tags := [], created_at := c, updated_at := c }

/-- A concrete epic record builder for fixtures. -/
def mkEpic (i : String) (ids : List String) : Epic :=
  { id := i, title := i, description := "", status := EpicStatus.planning,
    story_ids := ids, tags := [], created_at := 0, updated_at := 0 }

/-- The empty project. -/
def emptyState : ProjectState := { stories := [], sprints := [], epics := [] }

/-- One plain story STORY-1. -/
def stateC1 : ProjectState :=
  { stories := [mkStory "STORY-1" Priority.medium StoryStatus.todo none none none [] 0],
    sprints := [], epics := [] }

/-- A sprint with a valid date range (start day 1, end day 5). -/
def sprintC2 : Sprint :=
  mkSprint "SPRINT-2" SprintStatus.planning (some 86400) (some 432000) [] 0

/-- Project holding only sprintC2. -/
def stateC2 : ProjectState := { stories := [], sprints := [sprintC2], epics := [] }

/-- An empty sprint SPRINT-1 next to an unassigned story STORY-1. -/
def stateC3 : ProjectState :=
  { stories := [mkStory "STORY-1" Priority.medium StoryStatus.todo none none none [] 0],
    sprints := [mkSprint "SPRINT-1" SprintStatus.planning none none [] 0],
    epics := [] }

/-- SPRINT-1 after STORY-1 has been added to it once. -/
def sprintC3p : Sprint :=
  mkSprint "SPRINT-1" SprintStatus.planning none none ["STORY-1"] 0

/-- Epic EPIC-1 owning STORY-1 and STORY-2, both back-referencing it. -/
def stateC4 : ProjectState :=
  { stories :=
      [mkStory "STORY-1" Priority.medium StoryStatus.todo none none (some "EPIC-1") [] 0,
       mkStory "STORY-2" Priority.low StoryStatus.todo none none (some "EPIC-1") [] 1],
    sprints := [],
    epics := [mkEpic "EPIC-1" ["STORY-1", "STORY-2"]] }

/-- A single unassigned story that is already done. -/
def stateC5 : ProjectState :=
  { stories := [mkStory "STORY-D" Priority.high StoryStatus.done none none none [] 0],
    sprints := [], epics := [] }

/-- A mixed backlog: low/critical/high/critical priorities, one story already
done, one assigned to a sprint, varying creation times. -/
def stateC5b : ProjectState :=
  { stories :=
      [mkStory "S1" Priority.low StoryStatus.todo none none none ["Backend"] 5,
       mkStory "S2" Priority.critical StoryStatus.todo none none none [] 1,
       mkStory "S3" Priority.high StoryStatus.done none none none [] 2,
       mkStory "S4" Priority.critical StoryStatus.todo none (some "SPR") none [] 9,
       mkStory "S5" Priority.critical StoryStatus.todo none none none [] 7],
    sprints := [], epics := [] }

/-- An active sprint running from second 0 to second 432000 (five days). -/
def stateC6 : ProjectState :=
  { stories := [],
    sprints := [mkSprint "SPRINT-3" SprintStatus.active (some 0) (some 432000) [] 0],
    epics := [] }

/-- Two simultaneously active sprints (created 10 and 20) and a planning one. -/
def stateC9 : ProjectState :=
  { stories := [],
    sprints := [mkSprint "A" SprintStatus.active none none ["x"] 10,
                mkSprint "B" SprintStatus.planning none none [] 30,
                mkSprint "C" SprintStatus.active none none ["y"] 20],
    epics := [] }

/-! Helper lemmas about the keyed upsert performed by the save operations. -/

theorem find?_map_replace {α : Type} (q : α → Prop) [DecidablePred q] (s : α)
    (hs : q s) (l : List α) :
    (l.map (fun t => if q t then s else t)).find? (fun t => decide (q t)) =
      if l.any (fun t => decide (q t)) then some s else none := by
  induction l with
  | nil => rfl
  | cons a l ih =>
    by_cases h : q a
    · simp [h, hs, List.find?_cons_of_pos]
    · rw [List.map_cons, if_neg h,
        List.find?_cons_of_neg _ (by simpa using h), ih, List.any_cons]
      simp [h]

theorem find?_append_single {α : Type} (q : α → Prop) [DecidablePred q] (s : α)
    (hs : q s) (l : List α) (h : l.any (fun t => decide (q t)) = false) :
    (l ++ [s]).find? (fun t => decide (q t)) = some s := by
  induction l with
  | nil => simp [List.find?_cons_of_pos, hs]
  | cons a l ih =>
    simp only [List.any_cons, Bool.or_eq_false_iff] at h
    rw [List.cons_append, List.find?_cons_of_neg _ (by simp [h.1])]
    exact ih h.2

theorem get_sprint_save_sprint (st : ProjectState) (s : Sprint) :
    get_sprint (save_sprint st s) s.id = some s := by
  unfold get_sprint save_sprint
  by_cases h : st.sprints.any (fun t => decide (t.id = s.id)) = true
  · simp only [h, if_true]
    exact (find?_map_replace (fun t : Sprint => t.id = s.id) s rfl st.sprints).trans
      (by rw [if_pos h])
  · simp only [Bool.not_eq_true] at h
    simp only [h, Bool.false_eq_true, if_false]
    exact find?_append_single (fun t : Sprint => t.id = s.id) s rfl st.sprints h

theorem get_story_save_story (st : ProjectState) (s : UserStory) :
    get_story (save_story st s) s.id = some s := by
  unfold get_story save_story
  by_cases h : st.stories.any (fun t => decide (t.id = s.id)) = true
  · simp only [h, if_true]
    exact (find?_map_replace (fun t : UserStory => t.id = s.id) s rfl st.stories).trans
      (by rw [if_pos h])
  · simp only [Bool.not_eq_true] at h
    simp only [h, Bool.false_eq_true, if_false]
    exact find?_append_single (fun t : UserStory => t.id = s.id) s rfl st.stories h

theorem save_sprint_stories (st : ProjectState) (s : Sprint) :
    (save_sprint st s).stories = st.stories := by
  unfold save_sprint
  split <;> rfl

theorem get_sprint_id_eq {st : ProjectState} {sid : String} {sp : Sprint}
    (h : get_sprint st sid = some sp) : sp.id = sid := by
  have := List.find?_some h
  simpa using this

theorem get_sprint_mem {st : ProjectState} {sid : String} {sp : Sprint}
    (h : get_sprint st sid = some sp) : sp ∈ st.sprints :=
  List.mem_of_find?_eq_some h

theorem update_sprint_story_ids_eq {st : ProjectState} {sid : String} {sp : Sprint}
    (ids : List String) (h : get_sprint st sid = some sp) :
    SprintService.update_sprint st sid none none none none none (some ids) none =
      some ({ sp with story_ids := ids }, save_sprint st { sp with story_ids := ids }) := by
  unfold SprintService.update_sprint
  rw [h]
  rfl

theorem add_story_eq {st : ProjectState} {sid : String} {sp : Sprint} (tid : String)
    (h : get_sprint st sid = some sp) :
    SprintService.add_story_to_sprint st sid tid =
      some ({ sp with story_ids :=
                if tid ∈ sp.story_ids then sp.story_ids else sp.story_ids ++ [tid] },
            save_sprint st { sp with story_ids :=
                if tid ∈ sp.story_ids then sp.story_ids else sp.story_ids ++ [tid] }) := by
  unfold SprintService.add_story_to_sprint
  rw [h]
  exact update_sprint_story_ids_eq _ h

theorem remove_story_eq {st : ProjectState} {sid : String} {sp : Sprint} (tid : String)
    (h : get_sprint st sid = some sp) :
    SprintService.remove_story_from_sprint st sid tid =
      some ({ sp with story_ids := sp.story_ids.filter (fun x => decide (x ≠ tid)) },
            save_sprint st
              { sp with story_ids := sp.story_ids.filter (fun x => decide (x ≠ tid)) }) := by
  unfold SprintService.remove_story_from_sprint
  rw [h]
  exact update_sprint_story_ids_eq _ h

/-- C7: adding a story to a sprint twice yields the same story_ids as adding it
once (the id is appended only when absent, so no duplicate appears), and
removing an absent story leaves story_ids unchanged. -/
theorem add_story_idempotent_remove_noop (st : ProjectState) (sid tid : String) :
    (∀ sp1 st1, SprintService.add_story_to_sprint st sid tid = some (sp1, st1) →
      ∃ sp2 st2, SprintService.add_story_to_sprint st1 sid tid = some (sp2, st2) ∧
        sp2.story_ids = sp1.story_ids) ∧
    (∀ sp, get_sprint st sid = some sp → tid ∉ sp.story_ids →
      ∃ sp2 st2, SprintService.remove_story_from_sprint st sid tid = some (sp2, st2) ∧
        sp2.story_ids = sp.story_ids) := by
  constructor
  · intro sp1 st1 hadd
    cases hget : get_sprint st sid with
    | none =>
      unfold SprintService.add_story_to_sprint at hadd
      rw [hget] at hadd
      exact absurd hadd (by simp)
    | some sp =>
      have hEq := (add_story_eq tid hget).symm.trans hadd
      simp only [Option.some.injEq, Prod.mk.injEq] at hEq
      obtain ⟨h1, h2⟩ := hEq
      subst h1
      subst h2
      have hid0 : sp.id = sid := get_sprint_id_eq hget
      have hid : ({ sp with story_ids :=
          if tid ∈ sp.story_ids then sp.story_ids else sp.story_ids ++ [tid] } : Sprint).id
          = sid := hid0
      have hget1 : get_sprint
          (save_sprint st { sp with story_ids :=
            if tid ∈ sp.story_ids then sp.story_ids else sp.story_ids ++ [tid] }) sid =
          some { sp with story_ids :=
            if tid ∈ sp.story_ids then sp.story_ids else sp.story_ids ++ [tid] } := by
        rw [← hid]
        exact get_sprint_save_sprint st _
      have hmem : tid ∈ ({ sp with story_ids :=
          if tid ∈ sp.story_ids then sp.story_ids else sp.story_ids ++ [tid] } : Sprint).story_ids := by
        show tid ∈ (if tid ∈ sp.story_ids then sp.story_ids else sp.story_ids ++ [tid])
        by_cases hc : tid ∈ sp.story_ids
        · rwa [if_pos hc]
        · rw [if_neg hc]
          exact List.mem_append_right _ (by simp)
      refine ⟨_, _, add_story_eq tid hget1, ?_⟩
      show (if tid ∈ ({ sp with story_ids :=
          if tid ∈ sp.story_ids then sp.story_ids else sp.story_ids ++ [tid] } : Sprint).story_ids
        then ({ sp with story_ids :=
          if tid ∈ sp.story_ids then sp.story_ids else sp.story_ids ++ [tid] } : Sprint).story_ids
        else _ ++ [tid]) = _
      rw [if_pos hmem]
  · intro sp hget habs
    refine ⟨_, _, remove_story_eq tid hget, ?_⟩
    show sp.story_ids.filter (fun x => decide (x ≠ tid)) = sp.story_ids
    rw [List.filter_eq_self]
    intro x hx
    simp only [decide_eq_true_eq]
    intro hxe
    exact habs (hxe ▸ hx)

/-- C7 witness: in stateC3 with STORY-1 already added to SPRINT-1, adding it
again leaves the story_ids membership at exactly one occurrence. -/
theorem add_story_idempotent_remove_noop_witness :
    (SprintService.add_story_to_sprint (save_sprint stateC3 sprintC3p) "SPRINT-1" "STORY-1").map
        (fun r2 => r2.1.story_ids) = some ["STORY-1"] := by
  obtain ⟨sp2, st2, h2, he⟩ :=
    (add_story_idempotent_remove_noop stateC3 "SPRINT-1" "STORY-1").1 sprintC3p
      (save_sprint stateC3 sprintC3p) rfl
  rw [h2]
  simp only [Option.map]
  rw [he]
  rfl

/-- C3 counterexample: in stateC3 the add succeeds and SPRINT-1 lists STORY-1,
yet the story record is untouched: its sprint_id is still none, not
some SPRINT-1, so the link operation does not sync the story side. -/
theorem add_story_does_not_set_story_sprint_id :
    (SprintService.add_story_to_sprint stateC3 "SPRINT-1" "STORY-1").map
        (fun r => (r.1.story_ids,
          (get_story r.2 "STORY-1").map (fun s => s.sprint_id))) =
      some (["STORY-1"], some none) := by
  rfl

/-- C3 amended: after a successful add_story_to_sprint(S, T), T is a member of
S.story_ids, but the operation is one-sided: the stored story records are
exactly those of the prior state, so T keeps whatever sprint_id it had. -/
theorem add_story_updates_only_sprint_side (st : ProjectState) (sid tid : String)
    (sp : Sprint) (h : get_sprint st sid = some sp) :
    ∃ sp1 st1, SprintService.add_story_to_sprint st sid tid = some (sp1, st1) ∧
      tid ∈ sp1.story_ids ∧ st1.stories = st.stories := by
  refine ⟨_, _, add_story_eq tid h, ?_, save_sprint_stories st _⟩
  show tid ∈ (if tid ∈ sp.story_ids then sp.story_ids else sp.story_ids ++ [tid])
  by_cases hc : tid ∈ sp.story_ids
  · rwa [if_pos hc]
  · rw [if_neg hc]
    exact List.mem_append_right _ (by simp)

/-- C3 witness: the amended statement instantiated on stateC3. -/
theorem add_story_updates_only_sprint_side_witness :
    ∃ sp1 st1,
      SprintService.add_story_to_sprint stateC3 "SPRINT-1" "STORY-1" = some (sp1, st1) ∧
      "STORY-1" ∈ sp1.story_ids ∧ st1.stories = stateC3.stories :=
  add_story_updates_only_sprint_side stateC3 "SPRINT-1" "STORY-1"
    (mkSprint "SPRINT-1" SprintStatus.planning none none [] 0) rfl

/-- C1 counterexample: an update_story call supplying the non-Fibonacci points
value 4 on a missing story id completes without raising InvalidArgument (it
returns ok none), because the Python code checks existence before validating
points; the claim says any such call raises. -/
theorem update_story_missing_id_skips_points_validation :
    (4 : Int) ∉ StoryService.VALID_FIBONACCI_POINTS ∧
      StoryService.update_story emptyState "STORY-1" none none none none (some 4)
        none none = Except.ok none :=
  ⟨by decide, rfl⟩

/-- C1 amended: create_story with supplied points succeeds iff the value is in
the Fibonacci set and raises InvalidArgument otherwise (the error return
carries no state, so nothing is created); update_story behaves the same on an
existing story (the error return leaves the state unmodified); on a missing id
update_story returns none without validating points. -/
theorem story_points_validation (st : ProjectState) (story_id title description : String)
    (priority : Priority) (status : StoryStatus) (p : Int)
    (sprint_id : Option String) (tags : Option (List String)) (now : Nat) :
    (p ∈ StoryService.VALID_FIBONACCI_POINTS →
      ∃ story st2, StoryService.create_story st story_id title description priority
          status (some p) sprint_id tags now = Except.ok (story, st2) ∧
        story.points = some p) ∧
    (p ∉ StoryService.VALID_FIBONACCI_POINTS →
      StoryService.create_story st story_id title description priority status (some p)
        sprint_id tags now = Except.error "Story points must be a Fibonacci number") ∧
    (∀ story, get_story st story_id = some story →
      ∀ t d pr stt sid tg,
        (p ∈ StoryService.VALID_FIBONACCI_POINTS →
          ∃ u st2, StoryService.update_story st story_id t d pr stt (some p) sid tg =
            Except.ok (some (u, st2)) ∧ u.points = some p) ∧
        (p ∉ StoryService.VALID_FIBONACCI_POINTS →
          StoryService.update_story st story_id t d pr stt (some p) sid tg =
            Except.error "Story points must be a Fibonacci number")) ∧
    (get_story st story_id = none →
      ∀ t d pr stt sid tg,
        StoryService.update_story st story_id t d pr stt (some p) sid tg =
          Except.ok none) := by
  have hval : ∀ (hp : p ∈ StoryService.VALID_FIBONACCI_POINTS),
      StoryService.pointsInvalid (some p) = false := by
    intro hp
    simp [StoryService.pointsInvalid, hp]
  have hinv : ∀ (hp : p ∉ StoryService.VALID_FIBONACCI_POINTS),
      StoryService.pointsInvalid (some p) = true := by
    intro hp
    simp [StoryService.pointsInvalid, hp]
  refine ⟨?_, ?_, ?_, ?_⟩
  · intro hp
    unfold StoryService.create_story
    rw [hval hp]
    exact ⟨_, _, rfl, rfl⟩
  · intro hp
    unfold StoryService.create_story
    rw [hinv hp]
    simp
  · intro story hstory t d pr stt sid tg
    constructor
    · intro hp
      unfold StoryService.update_story
      rw [hstory, hval hp]
      exact ⟨_, _, rfl, rfl⟩
    · intro hp
      unfold StoryService.update_story
      rw [hstory, hinv hp]
      simp
  · intro hnone t d pr stt sid tg
    unfold StoryService.update_story
    rw [hnone]

/-- C1 witness: on the empty project, create_story with the out-of-set value 4
raises InvalidArgument. -/
theorem story_points_validation_witness :
    StoryService.create_story emptyState "STORY-9" "t" "d" Priority.medium
      StoryStatus.todo (some 4) none none 0 =
      Except.error "Story points must be a Fibonacci number" :=
  (story_points_validation emptyState "STORY-9" "t" "d" Priority.medium
    StoryStatus.todo 4 none none 0).2.1 (by decide)

/-- C2: create_sprint correctly rejects end_date ≤ start_date, but update_sprint
silently persists such a range: on sprintC2 (start at second 86400) an update
setting end_date to second 0 returns the sprint and stores it with
end_date ≤ start_date, although the Python docstring of update_sprint
announces a ValueError ("this will trigger validation" via model_copy, which
performs no validation in pydantic v2). -/
theorem update_sprint_persists_invalid_dates :
    SprintService.create_sprint emptyState "SPRINT-X" "n" none (some 86400) (some 0)
        SprintStatus.planning none none 0 =
      Except.error "End date must be after start date" ∧
    (SprintService.update_sprint stateC2 "SPRINT-2" none none none (some 0)
        none none none).map
        (fun r => (r.1.start_date, r.1.end_date,
          (get_sprint r.2 "SPRINT-2").map (fun s => (s.start_date, s.end_date)))) =
      some (some 86400, some 0, some (some 86400, some 0)) :=
  ⟨rfl, rfl⟩

/-- C8: list_stories applies its status, priority and sprint filters
conjunctively; a supplied sprint_id filter selects exactly that sprint and
makes the exclude-assigned flag irrelevant; with no sprint_id filter the flag
keeps exactly the stories whose sprint_id is none. -/
theorem list_stories_filter_semantics (st : ProjectState) (status : Option StoryStatus)
    (priority : Option Priority) (sid : Option String) (ex : Bool) :
    (∀ s, s ∈ StoryService.list_stories st status priority sid ex ↔
      s ∈ st.stories ∧
      (∀ v, status = some v → s.status = v) ∧
      (∀ v, priority = some v → s.priority = v) ∧
      (match sid with
       | some v => s.sprint_id = some v
       | none => ex = true → s.sprint_id = none)) ∧
    (∀ v, sid = some v →
      StoryService.list_stories st status priority (some v) ex =
        StoryService.list_stories st status priority (some v) false) := by
  constructor
  · intro s
    unfold StoryService.list_stories
    rw [List.mem_filter]
    cases status <;> cases priority <;> cases sid <;> cases ex <;>
      simp [and_assoc]
  · intro v hv
    cases ex <;> rfl

/-- C8 witness: with a sprint filter present the exclude-assigned flag is
ignored on the concrete stateC3. -/
theorem list_stories_filter_semantics_witness :
    StoryService.list_stories stateC3 none none (some "SPR") true =
      StoryService.list_stories stateC3 none none (some "SPR") false :=
  (list_stories_filter_semantics stateC3 none none (some "SPR") true).2 "SPR" rfl

theorem list_sprints_active_eq (st : ProjectState) :
    SprintService.list_sprints st (some SprintStatus.active) true =
      List.insertionSort SprintService.sprintLe
        (st.sprints.filter (fun sp => decide (sp.status = SprintStatus.active))) := by
  unfold SprintService.list_sprints
  simp

/-- C9: get_active_sprint is none exactly when no stored sprint has status
active; when it returns a sprint, that sprint is a stored record (story_ids
included, not the cleared summary copy), it is active, and it comes first in
the created_at-descending list ordering: every active sprint was created no
later than it. -/
theorem get_active_sprint_semantics (st : ProjectState) :
    (SprintService.get_active_sprint st = none ↔
      ∀ sp ∈ st.sprints, sp.status ≠ SprintStatus.active) ∧
    (∀ s, SprintService.get_active_sprint st = some s →
      s ∈ st.sprints ∧ s.status = SprintStatus.active ∧
      ∀ t ∈ st.sprints, t.status = SprintStatus.active →
        t.created_at ≤ s.created_at) := by
  constructor
  · unfold SprintService.get_active_sprint
    rw [list_sprints_active_eq]
    constructor
    · intro h sp hmem hact
      have hnil := List.head?_eq_none_iff.mp h
      have hperm := List.perm_insertionSort SprintService.sprintLe
        (st.sprints.filter (fun sp => decide (sp.status = SprintStatus.active)))
      rw [hnil] at hperm
      have hfil := hperm.symm.eq_nil
      rw [List.filter_eq_nil_iff] at hfil
      exact hfil sp hmem (by simp [hact])
    · intro h
      have hfil : st.sprints.filter
          (fun sp => decide (sp.status = SprintStatus.active)) = [] := by
        rw [List.filter_eq_nil_iff]
        intro a ha
        simp [h a ha]
      rw [hfil]
      rfl
  · intro s hs
    unfold SprintService.get_active_sprint at hs
    rw [list_sprints_active_eq] at hs
    have hmemL : s ∈ List.insertionSort SprintService.sprintLe
        (st.sprints.filter (fun sp => decide (sp.status = SprintStatus.active))) :=
      List.mem_of_mem_head? (Option.mem_def.mpr hs)
    have hmemF := (List.mem_insertionSort _).mp hmemL
    rw [List.mem_filter] at hmemF
    refine ⟨hmemF.1, by simpa using hmemF.2, ?_⟩
    intro t htmem htact
    have htL : t ∈ List.insertionSort SprintService.sprintLe
        (st.sprints.filter (fun sp => decide (sp.status = SprintStatus.active))) :=
      (List.mem_insertionSort _).mpr (List.mem_filter.mpr ⟨htmem, by simp [htact]⟩)
    have hsorted := List.sorted_insertionSort SprintService.sprintLe
      (st.sprints.filter (fun sp => decide (sp.status = SprintStatus.active)))
    cases hL : List.insertionSort SprintService.sprintLe
        (st.sprints.filter (fun sp => decide (sp.status = SprintStatus.active))) with
    | nil =>
      rw [hL] at hs
      exact absurd hs (by simp)
    | cons a tail =>
      rw [hL] at hs htL hsorted
      have has : a = s := by simpa using hs
      subst has
      rcases List.mem_cons.mp htL with h | htail
      · rw [h]
      · exact List.rel_of_sorted_cons hsorted t htail

/-- C9 witness: with two simultaneously active sprints (created at 10 and 20),
get_active_sprint returns the newer one, an active stored record. -/
theorem get_active_sprint_semantics_witness :
    mkSprint "C" SprintStatus.active none none ["y"] 20 ∈ stateC9.sprints ∧
      (mkSprint "C" SprintStatus.active none none ["y"] 20).status =
        SprintStatus.active :=
  (fun h => ⟨h.1, h.2.1⟩)
    ((get_active_sprint_semantics stateC9).2
      (mkSprint "C" SprintStatus.active none none ["y"] 20) rfl)

theorem delete_epic_found_eq {st : ProjectState} {epic_id : String} {epic : Epic}
    (h : get_epic st epic_id = some epic) :
    EpicService.delete_epic st epic_id =
      (true,
       { stories := st.stories.map (fun s =>
           if s.id ∈ epic.story_ids ∨ s.epic_id = some epic_id then
             { s with epic_id := none }
           else s),
         sprints := st.sprints,
         epics := st.epics.filter (fun e => decide (e.id ≠ epic_id)) }) := by
  unfold EpicService.delete_epic
  rw [h]

/-- C4: delete_epic returns false and leaves the state alone when the epic is
absent; on an existing epic it returns true, removes the epic, and clears the
epic_id back-reference of every owned story before it, so any later get of an
owned story yields epic_id none. -/
theorem delete_epic_clears_story_references (st : ProjectState) (epic_id : String) :
    (get_epic st epic_id = none →
      EpicService.delete_epic st epic_id = (false, st)) ∧
    (∀ epic, get_epic st epic_id = some epic →
      (EpicService.delete_epic st epic_id).1 = true ∧
      get_epic (EpicService.delete_epic st epic_id).2 epic_id = none ∧
      (∀ sid ∈ epic.story_ids, ∀ s,
        get_story (EpicService.delete_epic st epic_id).2 sid = some s →
          s.epic_id = none)) := by
  constructor
  · intro h
    unfold EpicService.delete_epic
    rw [h]
  · intro epic h
    rw [delete_epic_found_eq h]
    refine ⟨rfl, ?_, ?_⟩
    · show (st.epics.filter (fun e => decide (e.id ≠ epic_id))).find?
        (fun e => decide (e.id = epic_id)) = none
      rw [List.find?_eq_none]
      intro e he
      rw [List.mem_filter] at he
      simp only [decide_eq_true_eq] at he ⊢
      exact he.2
    · intro sid hsid s hget
      have hsidEq : s.id = sid := by simpa using List.find?_some hget
      have hmem : s ∈ st.stories.map (fun s =>
          if s.id ∈ epic.story_ids ∨ s.epic_id = some epic_id then
            { s with epic_id := none }
          else s) := List.mem_of_find?_eq_some hget
      rw [List.mem_map] at hmem
      obtain ⟨orig, horig, hfo⟩ := hmem
      by_cases hc : orig.id ∈ epic.story_ids ∨ orig.epic_id = some epic_id
      · rw [if_pos hc] at hfo
        rw [← hfo]
      · rw [if_neg hc] at hfo
        exfalso
        apply hc
        left
        rw [hfo, hsidEq]
        exact hsid

/-- C4 witness: deleting EPIC-1 from stateC4 returns true, removes the epic,
and a later get of owned STORY-1 shows its epic_id cleared to none. -/
theorem delete_epic_clears_story_references_witness :
    (EpicService.delete_epic stateC4 "EPIC-1").1 = true ∧
      get_epic (EpicService.delete_epic stateC4 "EPIC-1").2 "EPIC-1" = none ∧
      (get_story (EpicService.delete_epic stateC4 "EPIC-1").2 "STORY-1").map
        (fun s => s.epic_id) = some none := by
  have h := (delete_epic_clears_story_references stateC4 "EPIC-1").2
    (mkEpic "EPIC-1" ["STORY-1", "STORY-2"]) rfl
  exact ⟨h.1, h.2.1, by rfl⟩

/-- C6: for a stored sprint with both dates set (a valid range), the progress
record reports a time progress of 0 with days_until_start before the start,
100 with days_overdue after the end, and the linear interpolation
(now - start) / (end - start) * 100 with days_remaining in between; for a
five-day window sampled two days in, it reports exactly 40 percent and the
positive days_remaining 3. -/
theorem get_sprint_progress_semantics (st : ProjectState) (sid : String) (sp : Sprint)
    (sd ed now : Int) (h : get_sprint st sid = some sp)
    (hsd : sp.start_date = some sd) (hed : sp.end_date = some ed)
    (hrange : sd < ed) :
    ∃ pr, SprintService.get_sprint_progress st sid now = some pr ∧
      (now < sd → pr.time_progress_percent = some 0 ∧
        pr.days_until_start = some ((sd - now).fdiv 86400)) ∧
      (ed < now → pr.time_progress_percent = some 100 ∧
        pr.days_overdue = some ((now - ed).fdiv 86400)) ∧
      (sd ≤ now → now ≤ ed →
        pr.time_progress_percent =
          some (((now - sd : Int) : ℚ) / ((ed - sd : Int) : ℚ) * 100) ∧
        pr.days_remaining = some ((ed - now).fdiv 86400)) ∧
      (now = sd + 172800 → ed = sd + 432000 →
        pr.time_progress_percent = some 40 ∧ pr.days_remaining = some 3) := by
  simp only [SprintService.get_sprint_progress, h, hsd, hed]
  split_ifs with h1 h2
  · refine ⟨_, rfl, fun _ => ⟨rfl, rfl⟩, ?_, ?_, ?_⟩
    · intro h2
      exact False.elim (by omega)
    · intro h3 h4
      exact False.elim (by omega)
    · intro h4 h5
      exact False.elim (by omega)
  · refine ⟨_, rfl, ?_, fun _ => ⟨rfl, rfl⟩, ?_, ?_⟩
    · intro hc
      exact False.elim (by omega)
    · intro h3 h4
      exact False.elim (by omega)
    · intro h4 h5
      exact False.elim (by omega)
  · refine ⟨_, rfl, ?_, ?_, fun _ _ => ⟨rfl, rfl⟩, ?_⟩
    · intro hc
      exact False.elim (by omega)
    · intro hc
      exact False.elim (by omega)
    · intro h4 h5
      subst h4
      subst h5
      constructor
      · show some (((sd + 172800 - sd : Int) : ℚ) / ((sd + 432000 - sd : Int) : ℚ) * 100) =
          some 40
        have e1 : (sd + 172800 - sd : Int) = 172800 := by ring
        have e2 : (sd + 432000 - sd : Int) = 432000 := by ring
        rw [e1, e2]
        norm_num
      · show some ((sd + 432000 - (sd + 172800)).fdiv 86400) = some (3 : Int)
        have e3 : (sd + 432000 - (sd + 172800) : Int) = 259200 := by ring
        rw [e3]
        rfl

/-- C6 witness: the sprint of stateC6 runs from second 0 to second 432000
(five days); sampled at second 172800 (two days in) the progress is exactly
40 percent with 3 days remaining. -/
theorem get_sprint_progress_semantics_witness :
    (SprintService.get_sprint_progress stateC6 "SPRINT-3" 172800).map
      (fun pr => (pr.time_progress_percent, pr.days_remaining)) =
      some (some 40, some 3) := by
  obtain ⟨pr, hpr, _, _, _, hs⟩ :=
    get_sprint_progress_semantics stateC6 "SPRINT-3"
      (mkSprint "SPRINT-3" SprintStatus.active (some 0) (some 432000) [] 0)
      0 432000 172800 rfl rfl rfl (by norm_num)
  obtain ⟨hp, hd⟩ := hs (by norm_num) (by norm_num)
  rw [hpr]
  simp only [Option.map]
  rw [hp, hd]

/-! Membership through the successive backlog filter stages of
GetProductBacklogTool.apply. -/

theorem mem_backlog_sprint_filter (st : ProjectState) (s : UserStory) :
    (s ∈ st.stories.filter (fun t => !truthyOptStr t.sprint_id)) ↔
      s ∈ st.stories ∧ truthyOptStr s.sprint_id = false := by
  simp [List.mem_filter]

theorem mem_backlog_priority_filter (priority : Option String) (popt : Option Priority)
    (hp : GetProductBacklogTool.parsePriorityFilter priority = Except.ok popt)
    (B : List UserStory) (s : UserStory) :
    (s ∈ match popt with
         | some pe => B.filter (fun t : UserStory => decide (t.priority = pe))
         | none => B) ↔
      s ∈ B ∧ (∀ pstr, priority = some pstr → pstr ≠ "" →
        ∃ pe, Priority.ofString pstr = some pe ∧ s.priority = pe) := by
  rcases priority with _ | pstr
  · have hpo : popt = none := by
      simpa [GetProductBacklogTool.parsePriorityFilter] using hp.symm
    subst hpo
    simp
  · by_cases he : pstr = ""
    · subst he
      have hpo : popt = none := by
        simpa [GetProductBacklogTool.parsePriorityFilter] using hp.symm
      subst hpo
      simp
    · cases ho : Priority.ofString pstr with
      | none =>
        rw [GetProductBacklogTool.parsePriorityFilter.eq_def] at hp
        simp [he, ho] at hp
      | some pe =>
        have hpo : popt = some pe := by
          rw [GetProductBacklogTool.parsePriorityFilter.eq_def] at hp
          simp [he, ho] at hp
          exact hp.symm
        subst hpo
        simp [List.mem_filter, he, ho, and_assoc, eq_comm]

theorem mem_backlog_tag_filter (tags : Option String) (B : List UserStory)
    (s : UserStory) :
    (s ∈ if truthyOptStr tags then
        B.filter (fun t => (GetProductBacklogTool.splitTags (tags.getD "")).any
          (fun tag => decide (tag ∈ t.tags.map String.toLower)))
      else B) ↔
      s ∈ B ∧ (∀ tstr, tags = some tstr → tstr ≠ "" →
        ∃ tag, tag ∈ GetProductBacklogTool.splitTags tstr ∧
          tag ∈ s.tags.map String.toLower) := by
  rcases tags with _ | t
  · simp [truthyOptStr]
  · by_cases he : t = ""
    · subst he
      simp [truthyOptStr]
    · simp [truthyOptStr, he, List.mem_filter, List.any_eq_true, and_assoc]

theorem mem_backlog_done_filter (B : List UserStory) (ic : Bool) (s : UserStory) :
    (s ∈ if ic then B
         else B.filter (fun t => decide (t.status ≠ StoryStatus.done))) ↔
      s ∈ B ∧ (ic = false → s.status ≠ StoryStatus.done) := by
  cases ic <;> simp [List.mem_filter]

/-- The full semantics of GetProductBacklogTool.apply on success: the result
holds exactly the stories with a falsy sprint_id passing the priority filter,
the case-insensitive any-of tag filter and (unless include_completed) the
not-done filter, and it is sorted by (priority rank, created_at) descending. -/
theorem backlog_apply_ok (st : ProjectState) (priority tags : Option String)
    (ic : Bool) (l : List UserStory)
    (h : GetProductBacklogTool.apply st priority tags ic = Except.ok l) :
    (∀ s, s ∈ l ↔
      s ∈ st.stories ∧
      truthyOptStr s.sprint_id = false ∧
      (∀ pstr, priority = some pstr → pstr ≠ "" →
        ∃ pe, Priority.ofString pstr = some pe ∧ s.priority = pe) ∧
      (∀ tstr, tags = some tstr → tstr ≠ "" →
        ∃ tag, tag ∈ GetProductBacklogTool.splitTags tstr ∧
          tag ∈ s.tags.map String.toLower) ∧
      (ic = false → s.status ≠ StoryStatus.done)) ∧
    List.Sorted GetProductBacklogTool.backlogLe l := by
  have hall : StoryService.list_stories st none none none false = st.stories := by
    simp [StoryService.list_stories]
  cases hp : GetProductBacklogTool.parsePriorityFilter priority with
  | error e =>
    rw [GetProductBacklogTool.apply.eq_def, hall, hp] at h
    simp at h
  | ok popt =>
    rw [GetProductBacklogTool.apply.eq_def, hall, hp] at h
    simp only [Except.ok.injEq] at h
    subst h
    constructor
    · intro s
      rw [List.mem_insertionSort, mem_backlog_done_filter, mem_backlog_tag_filter,
        mem_backlog_priority_filter priority popt hp, mem_backlog_sprint_filter]
      simp only [and_assoc]
    · exact List.sorted_insertionSort _ _

/-- C5 counterexample: under the default include_completed = false, the done
story of stateC5 has a falsy sprint_id and passes the (absent) priority and
tag filters, yet the backlog returned is empty, so the query does not return
exactly the filter-passing unassigned stories. -/
theorem backlog_omits_done_despite_passing_filters :
    GetProductBacklogTool.apply stateC5 none none false = Except.ok [] ∧
      mkStory "STORY-D" Priority.high StoryStatus.done none none none [] 0 ∈
        stateC5.stories ∧
      truthyOptStr
        (mkStory "STORY-D" Priority.high StoryStatus.done none none none [] 0).sprint_id
        = false :=
  ⟨rfl, List.mem_singleton.mpr rfl, rfl⟩

/-- C5 amended: the product backlog query returns exactly the stories with no
(falsy) sprint_id that pass the optional conjunctive priority and tag filters
(tag match case-insensitive, any-of across requested tags) and that, unless
include_completed is true, are not in status done; the result is sorted by
priority descending (critical > high > medium > low) and, within equal
priority, by created_at descending. -/
theorem product_backlog_semantics (st : ProjectState) (priority tags : Option String)
    (ic : Bool) (l : List UserStory)
    (h : GetProductBacklogTool.apply st priority tags ic = Except.ok l) :
    (∀ s, s ∈ l ↔
      s ∈ st.stories ∧
      truthyOptStr s.sprint_id = false ∧
      (∀ pstr, priority = some pstr → pstr ≠ "" →
        ∃ pe, Priority.ofString pstr = some pe ∧ s.priority = pe) ∧
      (∀ tstr, tags = some tstr → tstr ≠ "" →
        ∃ tag, tag ∈ GetProductBacklogTool.splitTags tstr ∧
          tag ∈ s.tags.map String.toLower) ∧
      (ic = false → s.status ≠ StoryStatus.done)) ∧
    List.Sorted GetProductBacklogTool.backlogLe l :=
  backlog_apply_ok st priority tags ic l h

/-- C5 witness: on the mixed backlog stateC5b the query returns the stories in
the order newer-critical, older-critical, high, low, and that concrete output
is sorted by the backlog ordering. -/
theorem product_backlog_semantics_witness :
    List.Sorted GetProductBacklogTool.backlogLe
      [mkStory "S5" Priority.critical StoryStatus.todo none none none [] 7,
       mkStory "S2" Priority.critical StoryStatus.todo none none none [] 1,
       mkStory "S3" Priority.high StoryStatus.done none none none [] 2,
       mkStory "S1" Priority.low StoryStatus.todo none none none ["Backend"] 5] :=
  (product_backlog_semantics stateC5b none none true
    [mkStory "S5" Priority.critical StoryStatus.todo none none none [] 7,
     mkStory "S2" Priority.critical StoryStatus.todo none none none [] 1,
     mkStory "S3" Priority.high StoryStatus.done none none none [] 2,
     mkStory "S1" Priority.low StoryStatus.todo none none none ["Backend"] 5]
    rfl).2

/-- C10: when include_completed is left at its default false, no done story
appears in the product backlog even if it has no sprint_id; with
include_completed explicitly true every unassigned story — done ones
included — passing the (absent) filters is returned. -/
theorem backlog_excludes_done_by_default (st : ProjectState)
    (priority tags : Option String) (l : List UserStory)
    (h : GetProductBacklogTool.apply st priority tags false = Except.ok l) :
    (∀ s ∈ l, s.status ≠ StoryStatus.done) ∧
    (∀ s ∈ st.stories, truthyOptStr s.sprint_id = false →
      ∀ l2, GetProductBacklogTool.apply st none none true = Except.ok l2 →
        s ∈ l2) := by
  constructor
  · intro s hs
    exact (((backlog_apply_ok st priority tags false l h).1 s).mp hs).2.2.2.2 rfl
  · intro s hsm hspr l2 h2
    refine ((backlog_apply_ok st none none true l2 h2).1 s).mpr
      ⟨hsm, hspr, ?_, ?_, ?_⟩
    · intro pstr hps
      exact absurd hps (by simp)
    · intro tstr hts
      exact absurd hts (by simp)
    · intro hfalse
      exact absurd hfalse (by simp)

/-- C10 witness: the done unassigned story of stateC5 is absent from the
default backlog (ok []) and present once include_completed is true. -/
theorem backlog_excludes_done_by_default_witness :
    mkStory "STORY-D" Priority.high StoryStatus.done none none none [] 0 ∈
      [mkStory "STORY-D" Priority.high StoryStatus.done none none none [] 0] :=
  (backlog_excludes_done_by_default stateC5 none none [] rfl).2
    (mkStory "STORY-D" Priority.high StoryStatus.done none none none [] 0)
    (List.mem_singleton.mpr rfl) rfl
    [mkStory "STORY-D" Priority.high StoryStatus.done none none none [] 0] rfl

end AgileMcp
